import Mathlib

/-!
Verification of the service-navigator core against its specification.

The development shallowly embeds the two core components of the repository:

* `DataService` (from `js/data-service.js`): the in-memory record store with
  filtering, keyword search, radius search, id lookup, derived category /
  source-organization sets and validated insertion, together with the fixed
  `mockServices` collection from `js/data.js`.

* `ServiceMap` (the event-driven map component embedded in the repository
  documentation bundle): the marker-synchronization layer with
  `updateServices`, `addService`, `removeService`, marker rendering and the
  `on`/`emit` callback registry.

JavaScript numbers that only ever hold record coordinates are modelled as
rationals.  The haversine radius search (`getServicesWithinRadius` /
`calculateDistance`) is deliberately not embedded: the source computes it
with IEEE doubles through `Math.sin`/`Math.cos`/`Math.atan2`, whose accuracy
the language standard leaves implementation-approximated, so its boundary
behaviour has no faithful exact-arithmetic model.  JavaScript objects used
as string maps (`contact`, `hours`) are modelled as association lists.
Fallible operations return `Except`/`Bool` results exactly where the source
throws or returns `false`.
-/

/-- Model of JavaScript `String.prototype.includes` restricted to the prefix
test: `isPrefixB needle hay` is true when `needle` is an initial segment of
`hay`. -/
def isPrefixB : List Char → List Char → Bool
  | [], _ => true
  | _ :: _, [] => false
  | a :: as, b :: bs => a == b && isPrefixB as bs

/-- Model of JavaScript `hay.includes(needle)`: contiguous substring test. -/
def containsSubList (needle : List Char) : List Char → Bool
  | [] => isPrefixB needle []
  | c :: rest => isPrefixB needle (c :: rest) || containsSubList needle rest

/-- `strIncludes s sub` models the JavaScript expression `s.includes(sub)`. -/
def strIncludes (s sub : String) : Bool :=
  containsSubList sub.toList s.toList

/-- The whitespace characters recognised by the model of
`String.prototype.trim` (the data in scope only ever carries these). -/
def isJsWhitespace (c : Char) : Bool :=
  c == ' ' || c == '\t' || c == '\n' || c == '\r'

/-- Model of JavaScript `s.trim()`: strips whitespace from both ends. -/
def jsTrim (s : String) : String :=
  String.mk (((s.toList.dropWhile isJsWhitespace).reverse.dropWhile isJsWhitespace).reverse)

/-- Model of JavaScript `s.toLowerCase()` on ASCII data. -/
def jsToLower (s : String) : String :=
  String.mk (s.toList.map Char.toLower)

/-- Accumulate a decimal digit string into a natural number; any non-digit
character fails. -/
def digitsToNat (acc : ℕ) : List Char → Option ℕ
  | [] => some acc
  | c :: cs =>
    if c.toNat ≥ 48 ∧ c.toNat ≤ 57 then digitsToNat (acc * 10 + (c.toNat - 48)) cs
    else none

/-- Parse an optionally signed decimal integer numeral. -/
def parseDecInt : List Char → Option ℤ
  | [] => none
  | '-' :: cs => if cs = [] then none else (digitsToNat 0 cs).map (fun n => -(n : ℤ))
  | '+' :: cs => if cs = [] then none else (digitsToNat 0 cs).map (fun n => (n : ℤ))
  | cs => (digitsToNat 0 cs).map (fun n => (n : ℤ))

/-- Model of the JavaScript idiom `value || dflt` for an optional string
field: an absent (`undefined`) or empty (falsy) string yields the default. -/
def jsOrStr (v : Option String) (dflt : String) : String :=
  match v with
  | none => dflt
  | some s => if s = "" then dflt else s

/-- Model of a JavaScript `Set` of strings as an insertion-ordered duplicate
free list; `setAdd` models `Set.prototype.add`. -/
def setAdd (l : List String) (x : String) : List String :=
  if x ∈ l then l else l ++ [x]

/-- Strict lexicographic comparison of character sequences by code point:
the order induced by the default JavaScript `Array.prototype.sort`
comparator on strings (code points and code units agree on the data in
scope). -/
def charListLt : List Char → List Char → Bool
  | [], [] => false
  | [], _ :: _ => true
  | _ :: _, [] => false
  | a :: as, b :: bs =>
    if a.toNat < b.toNat then true
    else if b.toNat < a.toNat then false
    else charListLt as bs

/-- The string comparison underlying the model of `.sort()`. -/
def strLtB (a b : String) : Bool :=
  charListLt a.toList b.toList

/-- Insertion step of the string sort used to model `Array.from(set).sort()`. -/
def insertSorted (x : String) : List String → List String
  | [] => [x]
  | y :: ys => if strLtB y x then y :: insertSorted x ys else x :: y :: ys

/-- Model of `Array.from(set).sort()` on a list of strings. -/
def sortStrings : List String → List String
  | [] => []
  | x :: xs => insertSorted x (sortStrings xs)

/-- An id value supplied by a caller of `getServiceById`: the source is
dynamically typed, and the lookup there uses loose equality (`==`), so the
argument may be a number or a string. -/
inductive JsId where
  | num (n : ℤ)
  | str (s : String)
deriving DecidableEq, Repr

/-- Model of JavaScript `Number(s)` on the id strings relevant here: leading
and trailing whitespace is ignored, the empty (or all-whitespace) string
converts to `0`, optionally signed decimal integer numerals convert to
their value, and any other string yields `none`, standing for a value that
is loosely equal to no integer (`NaN`, or a non-integer number such as
`1.5`; exotic numeric formats such as hexadecimal or exponent numerals are
outside the model). -/
def jsStringToNumber (s : String) : Option ℤ :=
  if jsTrim s = "" then some 0 else parseDecInt (jsTrim s).toList

/-- Model of the JavaScript loose comparison `n == q` between a stored
numeric id `n` and a caller-supplied id `q`: a string operand is converted
to a number first. -/
def jsLooseEq (n : ℤ) (q : JsId) : Bool :=
  match q with
  | .num m => n == m
  | .str s =>
    match jsStringToNumber s with
    | some m => n == m
    | none => false

/-- A service record, the shape shared by both components (`js/data.js`).
`contact` and `hours` are string-keyed objects in the source, modelled as
association lists; `coordinates` is an optional `[latitude, longitude]`
pair.  A record whose `coordinates` field is `none` models a record without
(well-formed) coordinates. -/
structure Service where
  id : ℤ
  name : String
  organization : String
  address : String
  description : String
  category : String
  sourceOrg : String
  distance : String
  contact : List (String × String)
  hours : List (String × String)
  eligibility : String
  application : String
  coordinates : Option (ℚ × ℚ)
deriving DecidableEq, Repr

/-- The caller-supplied argument of `DataService.addService`.  The four
required fields are strings where the empty string models the falsy values
(absent or empty) rejected by the validation loop; the optional fields are
`Option`s, `none` modelling an absent property.  The source spreads the
argument object into the new record, so `description` and `coordinates`
pass through untouched (an absent description is modelled as the empty
string). -/
structure ServiceData where
  name : String
  organization : String
  address : String
  category : String
  description : String := ""
  distance : Option String := none
  sourceOrg : Option String := none
  contact : Option (List (String × String)) := none
  hours : Option (List (String × String)) := none
  eligibility : Option String := none
  application : Option String := none
  coordinates : Option (ℚ × ℚ) := none
deriving DecidableEq, Repr

/-- The fixed source collection `mockServices` of `js/data.js`. -/
def mockServices : List Service :=
  [ { id := 1
    , name := "Community Food Pantry"
    , organization := "Maryland Heights Community Center"
    , address := "2344 McKelvey Rd, Maryland Heights, MO 63043"
    , distance := "1.2 mi"
    , description := "Provides non-perishable food items to families and individuals in need. Proof of residency required."
    , category := "Food"
    , sourceOrg := "Alpha Org"
    , contact := [("phone", "(314) 555-1234"), ("email", "contact@mhcc.org"), ("website", "mhcc.org")]
    , hours := [("Monday", "9am - 3pm"), ("Tuesday", "9am - 3pm"), ("Wednesday", "Closed"), ("Thursday", "1pm - 6pm"), ("Friday", "9am - 12pm"), ("Saturday", "Closed"), ("Sunday", "Closed")]
    , eligibility := "Residents of 63043 zip code. Must provide a recent utility bill."
    , application := "Walk-in during open hours. First-time visitors need to fill out a short form."
    , coordinates := some (38.7190, -90.4218) }
  , { id := 2
    , name := "West County Legal Aid Clinic"
    , organization := "St. Louis Legal Services"
    , address := "11977 St Charles Rock Rd, Bridgeton, MO 63044"
    , distance := "3.5 mi"
    , description := "Free legal advice and representation for low-income individuals in civil cases, including housing and family law."
    , category := "Legal Aid"
    , sourceOrg := "Beta Community Group"
    , contact := [("phone", "(314) 555-5678"), ("email", "info@stlls.org"), ("website", "stlls.org")]
    , hours := [("Monday", "By Appointment"), ("Tuesday", "9am - 4pm"), ("Wednesday", "9am - 4pm"), ("Thursday", "By Appointment"), ("Friday", "9am - 12pm"), ("Saturday", "Closed"), ("Sunday", "Closed")]
    , eligibility := "Income at or below 125% of the federal poverty line."
    , application := "Call to schedule an intake appointment."
    , coordinates := some (38.7661, -90.4218) }
  , { id := 3
    , name := "Creve Coeur Mobile Food Market"
    , organization := "Operation Food Search"
    , address := "12301 Olive Blvd, Creve Coeur, MO 63141"
    , distance := "4.1 mi"
    , description := "Mobile market offering fresh produce and groceries at no cost. Schedule varies, check website."
    , category := "Food"
    , sourceOrg := "Gamma County Services"
    , contact := [("phone", "(314) 555-9999"), ("email", "mobile@operationfoodsearch.org"), ("website", "operationfoodsearch.org")]
    , hours := [("Monday", "Closed"), ("Tuesday", "10am - 1pm (Every 2nd Tuesday)"), ("Wednesday", "Closed"), ("Thursday", "Closed"), ("Friday", "Closed"), ("Saturday", "10am - 1pm (Every 4th Saturday)"), ("Sunday", "Closed")]
    , eligibility := "Open to all."
    , application := "No application needed. Please bring your own bags."
    , coordinates := some (38.6620, -90.4218) }
  , { id := 4
    , name := "Emergency Shelter Assistance"
    , organization := "County Crisis Intervention"
    , address := "7150 Natural Bridge Rd, St. Louis, MO 63121"
    , distance := "8.9 mi"
    , description := "Provides temporary emergency shelter placement and resources for individuals and families experiencing homelessness."
    , category := "Housing"
    , sourceOrg := "Gamma County Services"
    , contact := [("phone", "(314) 555-4321"), ("email", "shelter@co.st-louis.mo.us"), ("website", "stlouiscountymo.gov")]
    , hours := [("Monday", "24/7"), ("Tuesday", "24/7"), ("Wednesday", "24/7"), ("Thursday", "24/7"), ("Friday", "24/7"), ("Saturday", "24/7"), ("Sunday", "24/7")]
    , eligibility := "Must be currently homeless within St. Louis County."
    , application := "Call the 24/7 hotline for immediate assistance."
    , coordinates := some (38.7301, -90.2259) }
  ]

namespace DataService

/-- The mutable state of a `DataService` instance: the record array, the two
derived `Set`s (insertion-ordered, duplicate free) and the `initialized`
flag (named `inited` here; the source field name ends in a word this
development cannot use as an identifier). -/
structure DSState where
  services : List Service
  categories : List String
  sourceOrganizations : List String
  inited : Bool
deriving DecidableEq, Repr

/-- The state produced by `new DataService()`. -/
def freshStore : DSState :=
  { services := [], categories := [], sourceOrganizations := [], inited := false }

/-- `DataService.init`: a second call is a no-op; otherwise the record array
is replaced by a copy of `mockServices` while the two derived sets receive
the category / source organization of every loaded record (on top of
whatever they already contain). -/
def init (st : DSState) : DSState :=
  if st.inited then st
  else
    { st with
      services := mockServices
      categories := mockServices.foldl (fun acc s => setAdd acc s.category) st.categories
      sourceOrganizations :=
        mockServices.foldl (fun acc s => setAdd acc s.sourceOrg) st.sourceOrganizations
      inited := true }

/-- `DataService.getAllServices` (the source returns a shallow copy; a copy
of an immutable list is the list itself). -/
def getAllServices (st : DSState) : List Service :=
  st.services

/-- `DataService.getServicesByCategories`; the argument may be absent
(`none`).  An absent or empty list means no filtering. -/
def getServicesByCategories (st : DSState) (categories : Option (List String)) : List Service :=
  match categories with
  | none => getAllServices st
  | some cs =>
    if cs.length = 0 then getAllServices st
    else st.services.filter (fun s => cs.contains s.category)

/-- `DataService.getServicesBySourceOrgs`. -/
def getServicesBySourceOrgs (st : DSState) (sourceOrgs : Option (List String)) : List Service :=
  match sourceOrgs with
  | none => getAllServices st
  | some os =>
    if os.length = 0 then getAllServices st
    else st.services.filter (fun s => os.contains s.sourceOrg)

/-- The keyword predicate shared by `searchServices` and `filterServices`:
case-insensitive substring match against name, description, organization
and address. -/
def keywordMatches (searchTerm : String) (s : Service) : Bool :=
  strIncludes (jsToLower s.name) searchTerm ||
  strIncludes (jsToLower s.description) searchTerm ||
  strIncludes (jsToLower s.organization) searchTerm ||
  strIncludes (jsToLower s.address) searchTerm

/-- `DataService.searchServices`; a `none` keyword models an absent
argument, and a falsy (empty) or whitespace-only keyword means no
filtering. -/
def searchServices (st : DSState) (keyword : Option String) : List Service :=
  match keyword with
  | none => getAllServices st
  | some kw =>
    if kw = "" ∨ jsTrim kw = "" then getAllServices st
    else st.services.filter (keywordMatches (jsTrim (jsToLower kw)))

/-- `DataService.getServiceById`: `Array.prototype.find` with the loose
comparison `service.id == id`. -/
def getServiceById (st : DSState) (id : JsId) : Option Service :=
  st.services.find? (fun s => jsLooseEq s.id id)

/-- `DataService.getCategories`: `Array.from(this.categories).sort()`. -/
def getCategories (st : DSState) : List String :=
  sortStrings st.categories

/-- `DataService.getSourceOrganizations`. -/
def getSourceOrganizations (st : DSState) : List String :=
  sortStrings st.sourceOrganizations

/-- The argument object of `DataService.filterServices`; every criterion may
be absent. -/
structure FilterOptions where
  categories : Option (List String) := none
  sourceOrgs : Option (List String) := none
  keyword : Option String := none

/-- `DataService.filterServices`: three successive narrowing passes over a
copy of the full collection, each pass skipped when its criterion is absent,
empty or (for the keyword) blank. -/
def filterServices (st : DSState) (filters : FilterOptions) : List Service :=
  let fs1 := getAllServices st
  let fs2 :=
    match filters.categories with
    | some cs => if cs.length > 0 then fs1.filter (fun s => cs.contains s.category) else fs1
    | none => fs1
  let fs3 :=
    match filters.sourceOrgs with
    | some os => if os.length > 0 then fs2.filter (fun s => os.contains s.sourceOrg) else fs2
    | none => fs2
  match filters.keyword with
  | some kw =>
    if kw = "" ∨ jsTrim kw = "" then fs3
    else fs3.filter (keywordMatches (jsTrim (jsToLower kw)))
  | none => fs3

/-- The record built by a successful `DataService.addService` from the
argument data and a fresh id: the object spread followed by the
`field || default` lines of the source. -/
def buildService (d : ServiceData) (newId : ℤ) : Service :=
  { id := newId
  , name := d.name
  , organization := d.organization
  , address := d.address
  , description := d.description
  , category := d.category
  , distance := jsOrStr d.distance "Unknown"
  , sourceOrg := jsOrStr d.sourceOrg "User Contributed"
  , contact := d.contact.getD []
  , hours := d.hours.getD []
  , eligibility := jsOrStr d.eligibility "Not specified"
  , application := jsOrStr d.application "Contact service for details"
  , coordinates := d.coordinates }

/-- `DataService.addService`: validates the four required fields in order
(throwing on the first falsy one), computes
`Math.max(...this.services.map(s => s.id), 0) + 1` as the fresh id, pushes
the new record and adds its category / source organization to the derived
sets.  The returned pair is the new record and the updated state. -/
def addService (st : DSState) (d : ServiceData) : Except String (Service × DSState) :=
  if d.name = "" then .error "Missing required field: name"
  else if d.organization = "" then .error "Missing required field: organization"
  else if d.address = "" then .error "Missing required field: address"
  else if d.category = "" then .error "Missing required field: category"
  else
    let newId : ℤ := (st.services.map (fun s => s.id)).foldl max 0 + 1
    let s := buildService d newId
    .ok (s,
      { st with
        services := st.services ++ [s]
        categories := setAdd st.categories s.category
        sourceOrganizations := setAdd st.sourceOrganizations s.sourceOrg })

/-- One externally driven operation on a store: an `init()` call or an
`addService(d)` call (whose thrown error, if any, the caller absorbs,
leaving the state unchanged). -/
inductive DSOp where
  | opInit
  | opAdd (d : ServiceData)

/-- Apply one operation to a store state. -/
def applyOp (st : DSState) : DSOp → DSState
  | .opInit => init st
  | .opAdd d =>
    match addService st d with
    | .ok (_, st') => st'
    | .error _ => st

/-- Run a sequence of operations from a given state. -/
def runOps (st : DSState) (ops : List DSOp) : DSState :=
  ops.foldl applyOp st

end DataService

namespace ServiceMap

/-- A rendered map marker, keeping the observable data of the Leaflet
circle marker the component creates: its position and the `serviceId` tag
stored on it (`marker.serviceId = service.id`). -/
structure Marker where
  serviceId : ℤ
  lat : ℚ
  lng : ℚ
deriving DecidableEq, Repr

/-- The state of a `ServiceMap` instance.  The opaque Leaflet map handle is
represented by the flag `mapReady` (`this.map !== null`); `emitted` records
the names of the events the component emitted, in order (payloads are not
modelled).  The DOM-bound `init` itself is outside the model: an
initialized map is a state with `mapReady = true`. -/
structure SMState where
  services : List Service
  mapReady : Bool
  markers : List Marker
  emitted : List String
deriving DecidableEq, Repr

/-- `ServiceMap.clearMarkers`: removes every marker from the map (when one
exists) and empties the marker array. -/
def clearMarkers (st : SMState) : SMState :=
  { st with markers := [] }

/-- `ServiceMap.addSingleMarker`: a record without coordinates, or an
uninitialized map, produces no marker; otherwise one marker tagged with the
record's id is created at the record's coordinates and pushed. -/
def addSingleMarker (st : SMState) (s : Service) : SMState :=
  match s.coordinates, st.mapReady with
  | some (lat, lng), true => { st with markers := st.markers ++ [⟨s.id, lat, lng⟩] }
  | _, _ => st

/-- `ServiceMap.addServiceMarkers`: no-op without a map; otherwise clears
all markers and re-adds one per buffered service, in order. -/
def addServiceMarkers (st : SMState) : SMState :=
  if st.mapReady then st.services.foldl addSingleMarker (clearMarkers st)
  else st

/-- `ServiceMap.updateServices`: replaces the buffered snapshot wholesale
(a non-array argument would become the empty list; the model's argument is
always a list), rebuilds the markers when a map exists, and emits
`services-updated`. -/
def updateServices (st : SMState) (services : List Service) : SMState :=
  let st1 := { st with services := services }
  let st2 := if st1.mapReady then addServiceMarkers st1 else st1
  { st2 with emitted := st2.emitted ++ ["services-updated"] }

/-- `ServiceMap.addService`: a duplicate id (strict equality) is rejected
with `false` and no state change; otherwise the record is pushed, a single
marker is rendered when a map exists, `service-added` is emitted and `true`
is returned.  (The source also rejects a null argument; the model's
argument is always a record.) -/
def addService (st : SMState) (s : Service) : Bool × SMState :=
  if (st.services.find? (fun t => t.id == s.id)).isSome then (false, st)
  else
    let st1 := { st with services := st.services ++ [s] }
    let st2 := if st1.mapReady then addSingleMarker st1 s else st1
    (true, { st2 with emitted := st2.emitted ++ ["service-added"] })

/-- `ServiceMap.removeService`: `false` when no record has the id; otherwise
the first matching record is spliced out, the first marker tagged with the
id is removed from the map (when a map exists), `service-removed` is
emitted and `true` is returned. -/
def removeService (st : SMState) (serviceId : ℤ) : Bool × SMState :=
  match st.services.findIdx? (fun s => s.id == serviceId) with
  | none => (false, st)
  | some i =>
    let st1 := { st with services := st.services.eraseIdx i }
    let st2 :=
      match st1.markers.findIdx? (fun m => m.serviceId == serviceId) with
      | some j => if st1.mapReady then { st1 with markers := st1.markers.eraseIdx j } else st1
      | none => st1
    (true, { st2 with emitted := st2.emitted ++ ["service-removed"] })

/-- A subscriber callback for the event system.  A callback acts on some
handler-visible world `σ` and either returns normally with the updated
world or throws (`Except.error`). -/
abbrev EventHandler (σ : Type) : Type :=
  σ → Except String σ

/-- The `eventListeners` map: event name to ordered callback list, keyed
uniquely (the `on` method creates the entry on first subscription). -/
abbrev Registry (σ : Type) : Type :=
  List (String × List (EventHandler σ))

/-- `ServiceMap.on` (a reserved word here, hence `onEvent`): creates the
listener list on first use, then pushes the callback at the end, so
subscription order is invocation order. -/
def onEvent {σ : Type} (reg : Registry σ) (event : String) (callback : EventHandler σ) : Registry σ :=
  if (reg.find? (fun p => p.1 == event)).isSome then
    reg.map (fun p => if p.1 == event then (p.1, p.2 ++ [callback]) else p)
  else
    reg ++ [(event, [callback])]

/-- The per-callback step of `ServiceMap.emit`: a normal return threads the
new world on; a thrown error is caught and logged (`console.error`) with
the originating event name, leaving the world of the earlier callbacks
intact. -/
def emitStep {σ : Type} (event : String) (acc : σ × List String) (cb : EventHandler σ) :
    σ × List String :=
  match cb acc.1 with
  | .ok s' => (s', acc.2)
  | .error e => (acc.1, acc.2 ++ ["Error in " ++ event ++ " event listener: " ++ e])

/-- `ServiceMap.emit`: no listener list means an immediate return;
otherwise every currently-registered callback runs in subscription order,
each inside its own try/catch.  The result is the world after all
callbacks together with the console error log. -/
def emit {σ : Type} (reg : Registry σ) (event : String) (s : σ) (log : List String) :
    σ × List String :=
  match (reg.find? (fun p => p.1 == event)).map (fun p => p.2) with
  | none => (s, log)
  | some callbacks => callbacks.foldl (emitStep event) (s, log)

end ServiceMap

namespace ServiceMap

/-- The marker `addSingleMarker` renders for a record that has coordinates
(the `none` branch is irrelevant under the coordinate filter). -/
def markerOf (s : Service) : Marker :=
  match s.coordinates with
  | some (lat, lng) => ⟨s.id, lat, lng⟩
  | none => ⟨s.id, 0, 0⟩

end ServiceMap

namespace DataService

/-- The derived-index invariant of the specification: each of the two
derived sets holds exactly the values of the corresponding field over the
current record collection. -/
def derivedSetsExact (st : DSState) : Prop :=
  (∀ c, c ∈ st.categories ↔ c ∈ st.services.map Service.category) ∧
  (∀ o, o ∈ st.sourceOrganizations ↔ o ∈ st.services.map Service.sourceOrg)

end DataService

/-- A compact record constructor for the concrete test fixtures below. -/
def sampleService (i : ℤ) (nm org cat : String) (co : Option (ℚ × ℚ)) : Service :=
  { id := i, name := nm, organization := org
  , address := "Addr of " ++ nm, description := "Desc of " ++ nm
  , category := cat, sourceOrg := org, distance := "1 mi"
  , contact := [], hours := [], eligibility := "All", application := "Walk in"
  , coordinates := co }

/-- A small concrete store exercised by the witnesses. -/
def sampleStore : DataService.DSState :=
  { services :=
      [ sampleService 1 "Alpha Pantry" "Org One" "Food" (some (1, 2))
      , sampleService 2 "Beta Clinic" "Org Two" "Healthcare" none
      , sampleService 3 "Gamma Pantry" "Org Two" "Food" (some (3, 4)) ]
  , categories := ["Food", "Healthcare"]
  , sourceOrganizations := ["Org One", "Org Two"]
  , inited := true }

/-- A valid `addService` argument used by the witnesses. -/
def sampleData : ServiceData :=
  { name := "Delta Shelter", organization := "Org Three", address := "5 Main St"
  , category := "Housing", description := "Beds", distance := none
  , sourceOrg := none, contact := some [("phone", "555")], hours := none
  , eligibility := some "Adults", application := none, coordinates := none }

/-- An `addService` argument whose `address` is the first falsy required
field. -/
def sampleBadData : ServiceData :=
  { name := "Delta Shelter", organization := "Org Three", address := ""
  , category := "" }

/-- An initialized map state with no buffered services and one stale
marker, used by the witnesses. -/
def sampleMapState : ServiceMap.SMState :=
  { services := [], mapReady := true, markers := [⟨99, 5, 6⟩], emitted := [] }

/-- A record without coordinates, used to exhibit the marker behaviour of
`ServiceMap.addService`. -/
def noCoordService : Service :=
  sampleService 8 "Hidden Helpline" "Org Four" "Legal Aid" none

section Helpers

theorem find?_append_none {α : Type} {p : α → Bool} :
    ∀ {l1 : List α}, (∀ a ∈ l1, p a = false) → ∀ l2 : List α, (l1 ++ l2).find? p = l2.find? p
  | [], _, _ => rfl
  | a :: l1, h, l2 => by
    have ha : p a = false := h a (List.mem_cons_self a l1)
    simp only [List.cons_append, List.find?_cons, ha]
    exact find?_append_none (fun b hb => h b (List.mem_cons_of_mem a hb)) l2

theorem find?_eq_some_split {α : Type} {p : α → Bool} :
    ∀ {l : List α} {r : α}, l.find? p = some r →
      ∃ l1 l2, l = l1 ++ r :: l2 ∧ p r = true ∧ ∀ t ∈ l1, p t = false := by
  intro l
  induction l with
  | nil => intro r h; simp [List.find?] at h
  | cons a l ih =>
    intro r h
    by_cases ha : p a = true
    · refine ⟨[], l, ?_, ?_, ?_⟩
      · simp only [List.find?_cons, ha] at h
        injection h with h
        rw [h]
        simp
      · simp only [List.find?_cons, ha] at h
        injection h with h
        rw [← h]; exact ha
      · intro t ht; simp at ht
    · have ha' : p a = false := by
        cases hpa : p a
        · rfl
        · exact absurd hpa ha
      simp only [List.find?_cons, ha'] at h
      obtain ⟨l1, l2, hl, hr, hall⟩ := ih h
      refine ⟨a :: l1, l2, by rw [hl, List.cons_append], hr, ?_⟩
      intro t ht
      rcases List.mem_cons.mp ht with h1 | h2
      · rw [h1]; exact ha'
      · exact hall t h2

theorem le_foldl_max_init : ∀ (l : List ℤ) (a : ℤ), a ≤ l.foldl max a
  | [], a => le_refl a
  | x :: l, a => le_trans (le_max_left a x) (le_foldl_max_init l (max a x))

theorem le_foldl_max_mem : ∀ (l : List ℤ) (a x : ℤ), x ∈ l → x ≤ l.foldl max a
  | [], _, _, hx => absurd hx (List.not_mem_nil _)
  | y :: l, a, x, hx => by
    rcases List.mem_cons.mp hx with h1 | h2
    · rw [h1]
      exact le_trans (le_max_right a y) (le_foldl_max_init l (max a y))
    · exact le_foldl_max_mem l (max a y) x h2

theorem mem_setAdd {l : List String} {x y : String} : y ∈ setAdd l x ↔ y ∈ l ∨ y = x := by
  unfold setAdd
  by_cases h : x ∈ l
  · simp only [h, if_true]
    constructor
    · exact Or.inl
    · rintro (hy | rfl)
      · exact hy
      · exact h
  · simp [h]

theorem mem_foldl_setAdd (f : Service → String) :
    ∀ (l : List Service) (acc : List String) (x : String),
      (x ∈ l.foldl (fun a s => setAdd a (f s)) acc) ↔ x ∈ acc ∨ x ∈ l.map f
  | [], acc, x => by simp
  | s :: l, acc, x => by
    simp only [List.foldl_cons, List.map_cons, List.mem_cons]
    rw [mem_foldl_setAdd f l (setAdd acc (f s)) x, mem_setAdd]
    tauto

theorem charListLt_asymm : ∀ {as bs : List Char}, charListLt as bs = true → charListLt bs as = false
  | [], [], h => by simp [charListLt] at h
  | [], _ :: _, _ => by simp [charListLt]
  | _ :: _, [], h => by simp [charListLt] at h
  | a :: as, b :: bs, h => by
    simp only [charListLt] at h ⊢
    by_cases hab : a.toNat < b.toNat
    · have hba : ¬ b.toNat < a.toNat := by omega
      simp [hab, hba]
    · by_cases hba : b.toNat < a.toNat
      · simp [hab, hba] at h
      · simp only [hab, hba, if_false] at h ⊢
        exact charListLt_asymm h

theorem charListLt_le_trans :
    ∀ {as bs cs : List Char}, charListLt bs as = false → charListLt cs bs = false →
      charListLt cs as = false
  | [], _, cs, _, _ => by cases cs <;> simp [charListLt]
  | _ :: _, [], _, h1, _ => by simp [charListLt] at h1
  | _ :: _, _ :: _, [], _, h2 => by simp [charListLt] at h2
  | a :: as, b :: bs, c :: cs, h1, h2 => by
    simp only [charListLt] at h1 h2 ⊢
    by_cases hba : b.toNat < a.toNat
    · simp [hba] at h1
    · by_cases hcb : c.toNat < b.toNat
      · simp [hcb] at h2
      · by_cases hca : c.toNat < a.toNat
        · omega
        · by_cases hac : a.toNat < c.toNat
          · simp [hca, hac]
          · simp only [hba, if_false] at h1
            simp only [hcb, if_false] at h2
            have hab : ¬ a.toNat < b.toNat := by omega
            have hbc : ¬ b.toNat < c.toNat := by omega
            simp only [hab, if_false] at h1
            simp only [hbc, if_false] at h2
            simp only [hca, hac, if_false]
            exact charListLt_le_trans h1 h2

/-- The non-strict string order underlying the sortedness statements. -/
def strLeP (a b : String) : Prop :=
  strLtB b a = false

theorem strLeP_trans {a b c : String} (h1 : strLeP a b) (h2 : strLeP b c) : strLeP a c :=
  charListLt_le_trans h1 h2

theorem perm_insertSorted (x : String) : ∀ l : List String, (insertSorted x l).Perm (x :: l)
  | [] => List.Perm.refl _
  | y :: ys => by
    unfold insertSorted
    by_cases h : strLtB y x
    · simp only [h, if_true]
      exact ((perm_insertSorted x ys).cons y).trans (List.Perm.swap x y ys)
    · simp [h]

theorem mem_insertSorted {x z : String} {l : List String} (hz : z ∈ insertSorted x l) :
    z = x ∨ z ∈ l := by
  have := (perm_insertSorted x l).mem_iff.mp hz
  simpa using this

theorem sorted_insertSorted (x : String) :
    ∀ l : List String, l.Sorted strLeP → (insertSorted x l).Sorted strLeP
  | [], _ => by simp [insertSorted, List.Sorted]
  | y :: ys, h => by
    rw [List.sorted_cons] at h
    obtain ⟨hy, hys⟩ := h
    unfold insertSorted
    by_cases hxy : strLtB y x
    · simp only [hxy, if_true]
      rw [List.sorted_cons]
      refine ⟨?_, sorted_insertSorted x ys hys⟩
      intro z hz
      rcases mem_insertSorted hz with rfl | hz'
      · exact charListLt_asymm hxy
      · exact hy z hz'
    · have hxy' : strLtB y x = false := by
        cases hb : strLtB y x
        · rfl
        · exact absurd hb hxy
      simp only [hxy', Bool.false_eq_true, if_false]
      rw [List.sorted_cons]
      constructor
      · intro z hz
        rcases List.mem_cons.mp hz with rfl | hz'
        · exact hxy'
        · exact strLeP_trans hxy' (hy z hz')
      · rw [List.sorted_cons]; exact ⟨hy, hys⟩

theorem perm_sortStrings : ∀ l : List String, (sortStrings l).Perm l
  | [] => List.Perm.refl _
  | x :: xs => ((perm_insertSorted x (sortStrings xs)).trans
      (List.Perm.cons x (perm_sortStrings xs)))

theorem sorted_sortStrings : ∀ l : List String, (sortStrings l).Sorted strLeP
  | [] => by simp [sortStrings, List.Sorted]
  | x :: xs => sorted_insertSorted x (sortStrings xs) (sorted_sortStrings xs)

end Helpers

/-- C4: when at least one required field (name, organization, address,
category, in that order) is absent or falsy, `addService` fails with an
error naming the first missing field, and the store is left unchanged (no
record appended, derived sets untouched). -/
theorem addService_missing_required_field (st : DataService.DSState) (d : ServiceData)
    (h : d.name = "" ∨ d.organization = "" ∨ d.address = "" ∨ d.category = "") :
    DataService.addService st d = .error
      (if d.name = "" then "Missing required field: name"
       else if d.organization = "" then "Missing required field: organization"
       else if d.address = "" then "Missing required field: address"
       else "Missing required field: category") ∧
    DataService.applyOp st (.opAdd d) = st := by
  have herr : DataService.addService st d = .error
      (if d.name = "" then "Missing required field: name"
       else if d.organization = "" then "Missing required field: organization"
       else if d.address = "" then "Missing required field: address"
       else "Missing required field: category") := by
    unfold DataService.addService
    split_ifs with h1 h2 h3 h4
    · rfl
    · rfl
    · rfl
    · rfl
    · tauto
  refine ⟨herr, ?_⟩
  simp only [DataService.applyOp, herr]

/-- Witness for C4 at a concrete store and a concrete argument whose first
falsy required field is `address`. -/
theorem addService_missing_required_field_witness :
    DataService.addService sampleStore sampleBadData = .error "Missing required field: address" ∧
    DataService.applyOp sampleStore (.opAdd sampleBadData) = sampleStore := by
  have h := addService_missing_required_field sampleStore sampleBadData
    (Or.inr (Or.inr (Or.inl rfl)))
  exact ⟨h.1.trans (by rfl), h.2⟩

/-- C5: an absent or empty category list, an absent or empty source
organization list, and an absent, empty or whitespace-only keyword each
make the corresponding read return the full collection, exactly as
`getAllServices`. -/
theorem empty_criteria_return_all (st : DataService.DSState) (kw : String)
    (hkw : jsTrim kw = "") :
    DataService.getServicesByCategories st none = DataService.getAllServices st ∧
    DataService.getServicesByCategories st (some []) = DataService.getAllServices st ∧
    DataService.getServicesBySourceOrgs st none = DataService.getAllServices st ∧
    DataService.getServicesBySourceOrgs st (some []) = DataService.getAllServices st ∧
    DataService.searchServices st none = DataService.getAllServices st ∧
    DataService.searchServices st (some kw) = DataService.getAllServices st := by
  refine ⟨rfl, rfl, rfl, rfl, rfl, ?_⟩
  simp [DataService.searchServices, hkw]

/-- Witness for C5 at a concrete store and the whitespace-only keyword. -/
theorem empty_criteria_return_all_witness :
    DataService.getServicesByCategories sampleStore none = DataService.getAllServices sampleStore ∧
    DataService.getServicesByCategories sampleStore (some []) = DataService.getAllServices sampleStore ∧
    DataService.getServicesBySourceOrgs sampleStore none = DataService.getAllServices sampleStore ∧
    DataService.getServicesBySourceOrgs sampleStore (some []) = DataService.getAllServices sampleStore ∧
    DataService.searchServices sampleStore none = DataService.getAllServices sampleStore ∧
    DataService.searchServices sampleStore (some "   ") = DataService.getAllServices sampleStore :=
  empty_criteria_return_all sampleStore "   " (by decide)

theorem addService_success_eq (st : DataService.DSState) (d : ServiceData)
    (h1 : ¬ d.name = "") (h2 : ¬ d.organization = "") (h3 : ¬ d.address = "")
    (h4 : ¬ d.category = "") :
    DataService.addService st d = .ok
      (DataService.buildService d ((st.services.map (fun s => s.id)).foldl max 0 + 1),
       { services := st.services ++
           [DataService.buildService d ((st.services.map (fun s => s.id)).foldl max 0 + 1)]
       , categories := setAdd st.categories d.category
       , sourceOrganizations := setAdd st.sourceOrganizations (jsOrStr d.sourceOrg "User Contributed")
       , inited := st.inited }) := by
  unfold DataService.addService
  rw [if_neg h1, if_neg h2, if_neg h3, if_neg h4]
  exact rfl

theorem getServiceById_append_fresh (l : List Service) (cs os : List String) (b : Bool)
    (r : Service) (hfresh : ∀ t ∈ l, t.id ≠ r.id) :
    DataService.getServiceById ⟨l ++ [r], cs, os, b⟩ (.num r.id) = some r := by
  have hnone : ∀ t ∈ l, (fun s => jsLooseEq s.id (JsId.num r.id)) t = false := by
    intro t ht
    simp only [jsLooseEq, beq_eq_false_iff_ne, ne_eq]
    exact hfresh t ht
  unfold DataService.getServiceById
  rw [find?_append_none hnone]
  simp [List.find?_cons, jsLooseEq]

/-- C3: on data passing the required-field validation, `addService` returns
a record whose id is one more than the running maximum of the existing ids
(with floor 0, hence 1 on an empty store), equal to the merge of the data
with the documented defaults, appends it to the collection, adds its
category and source organization to the derived sets, and a subsequent
`getServiceById` on the fresh id returns exactly that record. -/
theorem addService_success_roundtrip (st : DataService.DSState) (d : ServiceData)
    (h1 : ¬ d.name = "") (h2 : ¬ d.organization = "") (h3 : ¬ d.address = "")
    (h4 : ¬ d.category = "") :
    ∃ r st', DataService.addService st d = .ok (r, st') ∧
      r.id = (st.services.map (fun s => s.id)).foldl max 0 + 1 ∧
      r = DataService.buildService d r.id ∧
      r.name = d.name ∧ r.organization = d.organization ∧ r.address = d.address ∧
      r.category = d.category ∧ r.description = d.description ∧
      r.coordinates = d.coordinates ∧
      r.distance = jsOrStr d.distance "Unknown" ∧
      r.sourceOrg = jsOrStr d.sourceOrg "User Contributed" ∧
      r.contact = d.contact.getD [] ∧ r.hours = d.hours.getD [] ∧
      r.eligibility = jsOrStr d.eligibility "Not specified" ∧
      r.application = jsOrStr d.application "Contact service for details" ∧
      st'.services = st.services ++ [r] ∧
      st'.categories = setAdd st.categories r.category ∧
      st'.sourceOrganizations = setAdd st.sourceOrganizations r.sourceOrg ∧
      (∀ t ∈ st.services, t.id ≠ r.id) ∧
      DataService.getServiceById st' (.num r.id) = some r := by
  have hadd := addService_success_eq st d h1 h2 h3 h4
  have hfresh : ∀ t ∈ st.services,
      t.id ≠ (DataService.buildService d ((st.services.map (fun s => s.id)).foldl max 0 + 1)).id := by
    intro t ht hid
    have hle := le_foldl_max_mem (st.services.map (fun s => s.id)) 0 t.id
      (List.mem_map_of_mem (fun s => s.id) ht)
    have hid' : t.id = (st.services.map (fun s => s.id)).foldl max 0 + 1 := hid
    omega
  exact ⟨_, _, hadd, rfl, rfl, rfl, rfl, rfl, rfl, rfl, rfl, rfl, rfl, rfl, rfl, rfl,
    rfl, rfl, rfl, rfl, hfresh,
    getServiceById_append_fresh st.services _ _ _ _ hfresh⟩

/-- Witness for C3: adding a concrete record to the concrete sample store
(running maximum id 3) succeeds and satisfies every clause of the claim. -/
theorem addService_success_roundtrip_witness :
    ∃ r st', DataService.addService sampleStore sampleData = .ok (r, st') ∧
      r.id = (sampleStore.services.map (fun s => s.id)).foldl max 0 + 1 ∧
      r = DataService.buildService sampleData r.id ∧
      r.name = sampleData.name ∧ r.organization = sampleData.organization ∧
      r.address = sampleData.address ∧
      r.category = sampleData.category ∧ r.description = sampleData.description ∧
      r.coordinates = sampleData.coordinates ∧
      r.distance = jsOrStr sampleData.distance "Unknown" ∧
      r.sourceOrg = jsOrStr sampleData.sourceOrg "User Contributed" ∧
      r.contact = sampleData.contact.getD [] ∧ r.hours = sampleData.hours.getD [] ∧
      r.eligibility = jsOrStr sampleData.eligibility "Not specified" ∧
      r.application = jsOrStr sampleData.application "Contact service for details" ∧
      st'.services = sampleStore.services ++ [r] ∧
      st'.categories = setAdd sampleStore.categories r.category ∧
      st'.sourceOrganizations = setAdd sampleStore.sourceOrganizations r.sourceOrg ∧
      (∀ t ∈ sampleStore.services, t.id ≠ r.id) ∧
      DataService.getServiceById st' (.num r.id) = some r :=
  addService_success_roundtrip sampleStore sampleData
    (by decide) (by decide) (by decide) (by decide)

/-- C10: `getServiceById` returns the first record in insertion order whose
id is loosely equal to the argument (so the string form of a numeric id
matches, e.g. 1 matches the string 1), and `none` when no record's id is
loosely equal to it. -/
theorem getServiceById_loose_first (st : DataService.DSState) (q : JsId) :
    (∀ r, DataService.getServiceById st q = some r →
      ∃ l1 l2, st.services = l1 ++ r :: l2 ∧ jsLooseEq r.id q = true ∧
        ∀ t ∈ l1, jsLooseEq t.id q = false) ∧
    (DataService.getServiceById st q = none ↔
      ∀ t ∈ st.services, jsLooseEq t.id q = false) ∧
    jsLooseEq 1 (JsId.str "1") = true := by
  refine ⟨?_, ?_, by decide⟩
  · intro r hr
    exact find?_eq_some_split hr
  · unfold DataService.getServiceById
    rw [List.find?_eq_none]
    constructor
    · intro h t ht
      cases hb : jsLooseEq t.id q
      · rfl
      · exact absurd hb (h t ht)
    · intro h t ht
      rw [h t ht]
      simp
/-- Witness for C10: on the concrete sample store the string id 2 finds the
second record first, with the one earlier record loosely unequal to it. -/
theorem getServiceById_loose_first_witness :
    ∃ l1 l2, sampleStore.services =
        l1 ++ (sampleService 2 "Beta Clinic" "Org Two" "Healthcare" none) :: l2 ∧
      jsLooseEq (sampleService 2 "Beta Clinic" "Org Two" "Healthcare" none).id
        (JsId.str "2") = true ∧
      ∀ t ∈ l1, jsLooseEq t.id (JsId.str "2") = false :=
  (getServiceById_loose_first sampleStore (JsId.str "2")).1 _ (by decide)

/-- C2: with all three criteria supplied and non-empty (non-blank),
`filterServices` returns exactly the records, in store order, that lie in
all three single-criterion results; with every criterion omitted it imposes
no constraint at all. -/
theorem filterServices_conjunction (st : DataService.DSState) (cs os : List String)
    (kw : String) (hcs : cs ≠ []) (hos : os ≠ []) (hkw : ¬ jsTrim kw = "") :
    DataService.filterServices st ⟨some cs, some os, some kw⟩ =
      st.services.filter (fun s =>
        decide (s ∈ DataService.getServicesByCategories st (some cs)) &&
        decide (s ∈ DataService.getServicesBySourceOrgs st (some os)) &&
        decide (s ∈ DataService.searchServices st (some kw))) ∧
    DataService.filterServices st ⟨none, none, none⟩ = DataService.getAllServices st := by
  have hkw0 : ¬ kw = "" := fun h => hkw (by rw [h]; rfl)
  have hcl : 0 < cs.length := List.length_pos.mpr hcs
  have hol : 0 < os.length := List.length_pos.mpr hos
  have hcne : ¬ cs.length = 0 := by omega
  have hone : ¬ os.length = 0 := by omega
  refine ⟨?_, rfl⟩
  have hL : DataService.filterServices st ⟨some cs, some os, some kw⟩ =
      ((st.services.filter (fun s => cs.contains s.category)).filter
        (fun s => os.contains s.sourceOrg)).filter
        (DataService.keywordMatches (jsTrim (jsToLower kw))) := by
    unfold DataService.filterServices
    simp only [DataService.getAllServices]
    rw [if_pos hcl, if_pos hol, if_neg (not_or.mpr ⟨hkw0, hkw⟩)]
  rw [hL, List.filter_filter, List.filter_filter]
  apply List.filter_congr
  intro s hs
  have hA : (s ∈ DataService.getServicesByCategories st (some cs)) ↔
      cs.contains s.category = true := by
    show s ∈ (if cs.length = 0 then DataService.getAllServices st
      else List.filter (fun s => cs.contains s.category) st.services) ↔ _
    rw [if_neg hcne, List.mem_filter]
    exact ⟨fun h => h.2, fun h => ⟨hs, h⟩⟩
  have hB : (s ∈ DataService.getServicesBySourceOrgs st (some os)) ↔
      os.contains s.sourceOrg = true := by
    show s ∈ (if os.length = 0 then DataService.getAllServices st
      else List.filter (fun s => os.contains s.sourceOrg) st.services) ↔ _
    rw [if_neg hone, List.mem_filter]
    exact ⟨fun h => h.2, fun h => ⟨hs, h⟩⟩
  have hC : (s ∈ DataService.searchServices st (some kw)) ↔
      DataService.keywordMatches (jsTrim (jsToLower kw)) s = true := by
    show s ∈ (if kw = "" ∨ jsTrim kw = "" then DataService.getAllServices st
      else List.filter (DataService.keywordMatches (jsTrim (jsToLower kw))) st.services) ↔ _
    rw [if_neg (not_or.mpr ⟨hkw0, hkw⟩), List.mem_filter]
    exact ⟨fun h => h.2, fun h => ⟨hs, h⟩⟩
  have hA' : decide (s ∈ DataService.getServicesByCategories st (some cs)) =
      cs.contains s.category := by
    cases hb : cs.contains s.category
    · rw [hb] at hA; simp [hA]
    · rw [hb] at hA; simp [hA]
  have hB' : decide (s ∈ DataService.getServicesBySourceOrgs st (some os)) =
      os.contains s.sourceOrg := by
    cases hb : os.contains s.sourceOrg
    · rw [hb] at hB; simp [hB]
    · rw [hb] at hB; simp [hB]
  have hC' : decide (s ∈ DataService.searchServices st (some kw)) =
      DataService.keywordMatches (jsTrim (jsToLower kw)) s := by
    cases hb : DataService.keywordMatches (jsTrim (jsToLower kw)) s
    · rw [hb] at hC; simp [hC]
    · rw [hb] at hC; simp [hC]
  rw [hA', hB', hC']
  cases cs.contains s.category <;> cases os.contains s.sourceOrg <;>
    cases DataService.keywordMatches (jsTrim (jsToLower kw)) s <;> rfl

/-- Witness for C2: the three concrete criteria on the sample store. -/
theorem filterServices_conjunction_witness :
    DataService.filterServices sampleStore ⟨some ["Food"], some ["Org Two"], some " PANTRY "⟩ =
      sampleStore.services.filter (fun s =>
        decide (s ∈ DataService.getServicesByCategories sampleStore (some ["Food"])) &&
        decide (s ∈ DataService.getServicesBySourceOrgs sampleStore (some ["Org Two"])) &&
        decide (s ∈ DataService.searchServices sampleStore (some " PANTRY "))) ∧
    DataService.filterServices sampleStore ⟨none, none, none⟩ =
      DataService.getAllServices sampleStore :=
  filterServices_conjunction sampleStore ["Food"] ["Org Two"] " PANTRY "
    (by decide) (by decide) (by decide)

theorem applyOp_add_invalid (st : DataService.DSState) (d : ServiceData)
    (h : d.name = "" ∨ d.organization = "" ∨ d.address = "" ∨ d.category = "") :
    DataService.applyOp st (.opAdd d) = st := by
  have herr : ∃ e, DataService.addService st d = .error e := by
    unfold DataService.addService
    split_ifs
    · exact ⟨_, rfl⟩
    · exact ⟨_, rfl⟩
    · exact ⟨_, rfl⟩
    · exact ⟨_, rfl⟩
    · tauto
  obtain ⟨e, he⟩ := herr
  show (match DataService.addService st d with
    | .ok (_, st') => st' | .error _ => st) = st
  rw [he]

theorem applyOp_preserves (st : DataService.DSState) (op : DataService.DSOp)
    (h1 : st.inited = true) (h2 : DataService.derivedSetsExact st) :
    (DataService.applyOp st op).inited = true ∧
      DataService.derivedSetsExact (DataService.applyOp st op) := by
  cases op with
  | opInit =>
    have heq : DataService.applyOp st .opInit = st := by
      show DataService.init st = st
      unfold DataService.init
      rw [if_pos h1]
    rw [heq]; exact ⟨h1, h2⟩
  | opAdd d =>
    by_cases hval : d.name = "" ∨ d.organization = "" ∨ d.address = "" ∨ d.category = ""
    · rw [applyOp_add_invalid st d hval]; exact ⟨h1, h2⟩
    · push_neg at hval
      obtain ⟨hn, ho, ha, hc⟩ := hval
      have hadd := addService_success_eq st d hn ho ha hc
      have happ : DataService.applyOp st (.opAdd d) =
          { services := st.services ++
              [DataService.buildService d ((st.services.map (fun s => s.id)).foldl max 0 + 1)]
          , categories := setAdd st.categories d.category
          , sourceOrganizations :=
              setAdd st.sourceOrganizations (jsOrStr d.sourceOrg "User Contributed")
          , inited := st.inited } := by
        show (match DataService.addService st d with
          | .ok (_, st') => st' | .error _ => st) = _
        rw [hadd]
      rw [happ]
      refine ⟨h1, ?_, ?_⟩
      · intro c
        rw [mem_setAdd, h2.1 c, List.map_append, List.mem_append]
        simp [DataService.buildService]
      · intro o
        rw [mem_setAdd, h2.2 o, List.map_append, List.mem_append]
        simp [DataService.buildService]

theorem runOps_preserves (ops : List DataService.DSOp) :
    ∀ st : DataService.DSState, st.inited = true → DataService.derivedSetsExact st →
      (DataService.runOps st ops).inited = true ∧
        DataService.derivedSetsExact (DataService.runOps st ops) := by
  induction ops with
  | nil => exact fun st h1 h2 => ⟨h1, h2⟩
  | cons op ops ih =>
    intro st h1 h2
    have h := applyOp_preserves st op h1 h2
    exact ih _ h.1 h.2

theorem init_fresh_good :
    (DataService.init DataService.freshStore).inited = true ∧
      DataService.derivedSetsExact (DataService.init DataService.freshStore) := by
  refine ⟨rfl, ?_, ?_⟩
  · intro c
    show c ∈ mockServices.foldl (fun acc s => setAdd acc s.category) [] ↔
      c ∈ mockServices.map Service.category
    rw [mem_foldl_setAdd (fun s => s.category)]
    simp
  · intro o
    show o ∈ mockServices.foldl (fun acc s => setAdd acc s.sourceOrg) [] ↔
      o ∈ mockServices.map Service.sourceOrg
    rw [mem_foldl_setAdd (fun s => s.sourceOrg)]
    simp

/-- C9 (amended): after any operation sequence that begins with `init` on a
fresh store (so that no successful add precedes the first `init`), the
derived category set is exactly the image of the category field over the
current collection and likewise for source organizations; and for every
state, `getCategories` / `getSourceOrganizations` return those sets as
sorted permutations of themselves (deterministic sorted order). -/
theorem derived_sets_exact_and_sorted (ops : List DataService.DSOp) :
    DataService.derivedSetsExact
      (DataService.runOps DataService.freshStore (DataService.DSOp.opInit :: ops)) ∧
    ∀ st : DataService.DSState,
      (DataService.getCategories st).Sorted strLeP ∧
      (DataService.getCategories st).Perm st.categories ∧
      (DataService.getSourceOrganizations st).Sorted strLeP ∧
      (DataService.getSourceOrganizations st).Perm st.sourceOrganizations := by
  constructor
  · have hbase := init_fresh_good
    have h : (DataService.runOps (DataService.init DataService.freshStore) ops).inited = true ∧
        DataService.derivedSetsExact
          (DataService.runOps (DataService.init DataService.freshStore) ops) :=
      runOps_preserves ops _ hbase.1 hbase.2
    exact h.2
  · intro st
    exact ⟨sorted_sortStrings _, perm_sortStrings _, sorted_sortStrings _, perm_sortStrings _⟩

/-- Counterexample to C9 as stated: the claim quantifies over any sequence
of `init` and successful `addService` operations, but a successful add on a
fresh, not-yet-initialized store followed by `init` leaves the added
category in the derived set while `init` replaces the record array, so the
set is strictly larger than the image of the category field. -/
theorem derived_sets_counterexample :
    "Zed Category" ∈ (DataService.runOps DataService.freshStore
      [DataService.DSOp.opAdd
        { name := "N", organization := "O", address := "A", category := "Zed Category" },
       DataService.DSOp.opInit]).categories ∧
    "Zed Category" ∉ ((DataService.runOps DataService.freshStore
      [DataService.DSOp.opAdd
        { name := "N", organization := "O", address := "A", category := "Zed Category" },
       DataService.DSOp.opInit]).services.map Service.category) := by
  decide

theorem foldl_addSingleMarker (l : List Service) :
    ∀ st : ServiceMap.SMState, st.mapReady = true →
      (l.foldl ServiceMap.addSingleMarker st).markers =
        st.markers ++ (l.filter (fun s => s.coordinates.isSome)).map ServiceMap.markerOf ∧
      (l.foldl ServiceMap.addSingleMarker st).mapReady = true ∧
      (l.foldl ServiceMap.addSingleMarker st).services = st.services ∧
      (l.foldl ServiceMap.addSingleMarker st).emitted = st.emitted := by
  induction l with
  | nil => intro st h; simp [h]
  | cons s l ih =>
    intro st h
    rw [List.foldl_cons]
    cases hco : s.coordinates with
    | none =>
      have hstep : ServiceMap.addSingleMarker st s = st := by
        unfold ServiceMap.addSingleMarker
        rw [hco, h]
      rw [hstep]
      have hrest := ih st h
      simpa [List.filter_cons, hco] using hrest
    | some p =>
      obtain ⟨la, ln⟩ := p
      have hstep : ServiceMap.addSingleMarker st s =
          { st with markers := st.markers ++ [⟨s.id, la, ln⟩] } := by
        unfold ServiceMap.addSingleMarker
        rw [hco, h]
      rw [hstep]
      have hmo : ServiceMap.markerOf s = ⟨s.id, la, ln⟩ := by
        unfold ServiceMap.markerOf
        rw [hco]
      obtain ⟨h1, h2, h3, h4⟩ := ih { st with markers := st.markers ++ [⟨s.id, la, ln⟩] } h
      refine ⟨?_, h2, h3, h4⟩
      rw [h1]
      simp [List.filter_cons, hco, hmo]

/-- C1: after `updateServices(R)` on an initialized map, the marker array is
exactly one marker per record of R that has coordinates, in order, each
tagged with its record's id; no marker exists for a coordinate-free record
or for a record outside R, and the marker count equals the number of
records of R with coordinates. -/
theorem updateServices_reconciliation (st : ServiceMap.SMState) (R : List Service)
    (h : st.mapReady = true) :
    (ServiceMap.updateServices st R).markers =
      (R.filter (fun s => s.coordinates.isSome)).map ServiceMap.markerOf ∧
    (ServiceMap.updateServices st R).markers.map ServiceMap.Marker.serviceId =
      (R.filter (fun s => s.coordinates.isSome)).map Service.id ∧
    (ServiceMap.updateServices st R).markers.length =
      (R.filter (fun s => s.coordinates.isSome)).length := by
  have hms : ∀ s : Service, (ServiceMap.markerOf s).serviceId = s.id := by
    intro s
    unfold ServiceMap.markerOf
    cases hc : s.coordinates with
    | none => rfl
    | some p => obtain ⟨a, b⟩ := p; rfl
  have hm : (ServiceMap.updateServices st R).markers =
      (R.filter (fun s => s.coordinates.isSome)).map ServiceMap.markerOf := by
    have hfold := foldl_addSingleMarker R { st with services := R, markers := [] } h
    simp only [ServiceMap.updateServices, ServiceMap.addServiceMarkers,
      ServiceMap.clearMarkers, h, if_true]
    simpa [h] using hfold.1
  refine ⟨hm, ?_, ?_⟩
  · rw [hm, List.map_map]
    apply List.map_congr_left
    intro s _
    exact hms s
  · rw [hm, List.length_map]

/-- Witness for C1: a concrete mixed list on an initialized map carrying a
stale marker. -/
theorem updateServices_reconciliation_witness :
    (ServiceMap.updateServices sampleMapState
        [sampleService 1 "Alpha Pantry" "Org One" "Food" (some (1, 2)),
         sampleService 2 "Beta Clinic" "Org Two" "Healthcare" none,
         sampleService 3 "Gamma Pantry" "Org Two" "Food" (some (3, 4))]).markers =
      (([sampleService 1 "Alpha Pantry" "Org One" "Food" (some (1, 2)),
         sampleService 2 "Beta Clinic" "Org Two" "Healthcare" none,
         sampleService 3 "Gamma Pantry" "Org Two" "Food" (some (3, 4))]).filter
        (fun s => s.coordinates.isSome)).map ServiceMap.markerOf ∧
    (ServiceMap.updateServices sampleMapState
        [sampleService 1 "Alpha Pantry" "Org One" "Food" (some (1, 2)),
         sampleService 2 "Beta Clinic" "Org Two" "Healthcare" none,
         sampleService 3 "Gamma Pantry" "Org Two" "Food" (some (3, 4))]).markers.map
        ServiceMap.Marker.serviceId =
      (([sampleService 1 "Alpha Pantry" "Org One" "Food" (some (1, 2)),
         sampleService 2 "Beta Clinic" "Org Two" "Healthcare" none,
         sampleService 3 "Gamma Pantry" "Org Two" "Food" (some (3, 4))]).filter
        (fun s => s.coordinates.isSome)).map Service.id ∧
    (ServiceMap.updateServices sampleMapState
        [sampleService 1 "Alpha Pantry" "Org One" "Food" (some (1, 2)),
         sampleService 2 "Beta Clinic" "Org Two" "Healthcare" none,
         sampleService 3 "Gamma Pantry" "Org Two" "Food" (some (3, 4))]).markers.length =
      (([sampleService 1 "Alpha Pantry" "Org One" "Food" (some (1, 2)),
         sampleService 2 "Beta Clinic" "Org Two" "Healthcare" none,
         sampleService 3 "Gamma Pantry" "Org Two" "Food" (some (3, 4))]).filter
        (fun s => s.coordinates.isSome)).length :=
  updateServices_reconciliation sampleMapState
    [sampleService 1 "Alpha Pantry" "Org One" "Food" (some (1, 2)),
     sampleService 2 "Beta Clinic" "Org Two" "Healthcare" none,
     sampleService 3 "Gamma Pantry" "Org Two" "Food" (some (3, 4))] rfl

theorem findIdx?_eq_none_of_all {α : Type} (p : α → Bool) :
    ∀ (l : List α) (i : ℕ), (∀ a ∈ l, p a = false) → l.findIdx? p i = none
  | [], _, _ => rfl
  | a :: l, i, h => by
    rw [List.findIdx?_cons, h a (List.mem_cons_self a l)]
    simp only [Bool.false_eq_true, if_false]
    exact findIdx?_eq_none_of_all p l (i + 1) (fun b hb => h b (List.mem_cons_of_mem a hb))

theorem findIdx?_eq_some_first {α : Type} (p : α → Bool) :
    ∀ (l1 : List α) (r : α) (l2 : List α) (i : ℕ), p r = true → (∀ a ∈ l1, p a = false) →
      (l1 ++ r :: l2).findIdx? p i = some (i + l1.length)
  | [], r, l2, i, hr, _ => by
    simp [List.findIdx?_cons, hr]
  | a :: l1, r, l2, i, hr, h => by
    rw [List.cons_append, List.findIdx?_cons, h a (List.mem_cons_self a l1)]
    simp only [Bool.false_eq_true, if_false]
    rw [findIdx?_eq_some_first p l1 r l2 (i + 1) hr
      (fun b hb => h b (List.mem_cons_of_mem a hb))]
    congr 1
    simp only [List.length_cons]
    omega

theorem eraseIdx_append_middle {α : Type} :
    ∀ (l1 : List α) (r : α) (l2 : List α), (l1 ++ r :: l2).eraseIdx l1.length = l1 ++ l2
  | [], _, _ => rfl
  | a :: l1, r, l2 => by
    have hstep : ((a :: l1) ++ r :: l2).eraseIdx (a :: l1).length =
        a :: ((l1 ++ r :: l2).eraseIdx l1.length) := rfl
    rw [hstep, eraseIdx_append_middle l1 r l2, List.cons_append]

/-- C7 (amended): `ServiceMap.addService` rejects a duplicate id with
`false` and leaves everything unchanged; on a new id it inserts the record,
returns `true`, and renders exactly one new marker when the map is
initialized and the record has coordinates - and no marker otherwise -
without touching existing markers.  `ServiceMap.removeService` returns
`false` and leaves the state unchanged when no record has the id;
otherwise it removes exactly the first matching record and, on an
initialized map, the first marker tagged with that id. -/
theorem smAdd_smRemove_spec :
    (∀ (st : ServiceMap.SMState) (s : Service), (∃ t ∈ st.services, t.id = s.id) →
      ServiceMap.addService st s = (false, st)) ∧
    (∀ (st : ServiceMap.SMState) (s : Service), st.mapReady = true →
      (∀ t ∈ st.services, t.id ≠ s.id) →
      (ServiceMap.addService st s).1 = true ∧
      (ServiceMap.addService st s).2.services = st.services ++ [s] ∧
      (ServiceMap.addService st s).2.markers =
        st.markers ++ (if s.coordinates.isSome then [ServiceMap.markerOf s] else [])) ∧
    (∀ (st : ServiceMap.SMState) (i : ℤ), (∀ t ∈ st.services, t.id ≠ i) →
      ServiceMap.removeService st i = (false, st)) ∧
    (∀ (st : ServiceMap.SMState) (i : ℤ) (l1 l2 : List Service) (r : Service)
      (m1 m2 : List ServiceMap.Marker) (mrk : ServiceMap.Marker),
      st.mapReady = true →
      st.services = l1 ++ r :: l2 → r.id = i → (∀ t ∈ l1, t.id ≠ i) →
      st.markers = m1 ++ mrk :: m2 → mrk.serviceId = i → (∀ m ∈ m1, m.serviceId ≠ i) →
      (ServiceMap.removeService st i).1 = true ∧
      (ServiceMap.removeService st i).2.services = l1 ++ l2 ∧
      (ServiceMap.removeService st i).2.markers = m1 ++ m2) := by
  refine ⟨?_, ?_, ?_, ?_⟩
  · intro st s hdup
    obtain ⟨t, ht, hid⟩ := hdup
    have hsome : (st.services.find? (fun t => t.id == s.id)).isSome = true := by
      cases hf : st.services.find? (fun t => t.id == s.id) with
      | none =>
        have := List.find?_eq_none.mp hf t ht
        simp [hid] at this
      | some u => rfl
    simp [ServiceMap.addService, hsome]
  · intro st s h hfresh
    have hnone : st.services.find? (fun t => t.id == s.id) = none := by
      rw [List.find?_eq_none]
      intro t ht
      simp [hfresh t ht]
    cases hco : s.coordinates with
    | none =>
      refine ⟨?_, ?_, ?_⟩ <;>
        simp [ServiceMap.addService, ServiceMap.addSingleMarker, hnone, h, hco]
    | some p =>
      obtain ⟨la, ln⟩ := p
      refine ⟨?_, ?_, ?_⟩ <;>
        simp [ServiceMap.addService, ServiceMap.addSingleMarker, ServiceMap.markerOf,
          hnone, h, hco]
  · intro st i hfresh
    have hnone : st.services.findIdx? (fun s => s.id == i) = none := by
      apply findIdx?_eq_none_of_all
      intro t ht
      simp [hfresh t ht]
    simp [ServiceMap.removeService, hnone]
  · intro st i l1 l2 r m1 m2 mrk hready hsvc hrid hl1 hmks hmid hm1
    have hfsvc : st.services.findIdx? (fun s => s.id == i) = some l1.length := by
      rw [hsvc]
      have := findIdx?_eq_some_first (fun s : Service => s.id == i) l1 r l2 0
        (by simp [hrid]) (fun a ha => by simp [hl1 a ha])
      simpa using this
    have hfmk : (m1 ++ mrk :: m2).findIdx? (fun m => m.serviceId == i) = some m1.length := by
      have := findIdx?_eq_some_first (fun m : ServiceMap.Marker => m.serviceId == i) m1 mrk m2 0
        (by simp [hmid]) (fun a ha => by simp [hm1 a ha])
      simpa using this
    have hesvc : st.services.eraseIdx l1.length = l1 ++ l2 := by
      rw [hsvc]; exact eraseIdx_append_middle l1 r l2
    have hemk : (m1 ++ mrk :: m2).eraseIdx m1.length = m1 ++ m2 :=
      eraseIdx_append_middle m1 mrk m2
    refine ⟨?_, ?_, ?_⟩ <;>
      simp [ServiceMap.removeService, hfsvc, hfmk, hesvc, hemk, hmks, hready]

/-- Witness for C7: on the concrete sample map state (one stale marker,
empty service list), adding a coordinate-bearing record succeeds with one
new marker; a second add of the same id is rejected unchanged; removing an
absent id returns false; removing the added id removes exactly its record
and marker. -/
theorem smAdd_smRemove_spec_witness :
    ServiceMap.addService
        { services := [sampleService 5 "Epsilon Aid" "Org Five" "Food" (some (7, 8))]
        , mapReady := true, markers := [⟨5, 7, 8⟩], emitted := [] }
        (sampleService 5 "Epsilon Aid" "Org Five" "Food" (some (7, 8))) =
      (false,
        { services := [sampleService 5 "Epsilon Aid" "Org Five" "Food" (some (7, 8))]
        , mapReady := true, markers := [⟨5, 7, 8⟩], emitted := [] }) ∧
    (ServiceMap.addService sampleMapState
        (sampleService 5 "Epsilon Aid" "Org Five" "Food" (some (7, 8)))).1 = true ∧
    (ServiceMap.addService sampleMapState
        (sampleService 5 "Epsilon Aid" "Org Five" "Food" (some (7, 8)))).2.markers =
      sampleMapState.markers ++ [ServiceMap.markerOf
        (sampleService 5 "Epsilon Aid" "Org Five" "Food" (some (7, 8)))] ∧
    ServiceMap.removeService sampleMapState 123 = (false, sampleMapState) ∧
    (ServiceMap.removeService
        { services := [sampleService 5 "Epsilon Aid" "Org Five" "Food" (some (7, 8))]
        , mapReady := true, markers := [⟨99, 5, 6⟩, ⟨5, 7, 8⟩], emitted := [] } 5).2.markers =
      [⟨99, 5, 6⟩] := by
  refine ⟨?_, ?_, ?_, ?_, ?_⟩
  · exact smAdd_smRemove_spec.1 _ _
      ⟨sampleService 5 "Epsilon Aid" "Org Five" "Food" (some (7, 8)),
        List.mem_cons_self _ _, rfl⟩
  · exact (smAdd_smRemove_spec.2.1 sampleMapState _ rfl (by decide)).1
  · have h := (smAdd_smRemove_spec.2.1 sampleMapState
      (sampleService 5 "Epsilon Aid" "Org Five" "Food" (some (7, 8))) rfl (by decide)).2.2
    simpa using h
  · exact smAdd_smRemove_spec.2.2.1 sampleMapState 123 (by decide)
  · have h := (smAdd_smRemove_spec.2.2.2
      { services := [sampleService 5 "Epsilon Aid" "Org Five" "Food" (some (7, 8))]
      , mapReady := true, markers := [⟨99, 5, 6⟩, ⟨5, 7, 8⟩], emitted := [] } 5
      [] [] (sampleService 5 "Epsilon Aid" "Org Five" "Food" (some (7, 8)))
      [⟨99, 5, 6⟩] [] ⟨5, 7, 8⟩ rfl rfl rfl (by decide) rfl rfl (by decide)).2.2
    simpa using h

/-- Counterexample to C7 as stated: on an initialized map,
`ServiceMap.addService` with a fresh record that has no coordinates inserts
the record and returns true, yet renders no marker at all, contradicting
the claim that a non-duplicate insertion always renders exactly one new
marker. -/
theorem smAddService_no_marker_counterexample :
    (ServiceMap.addService
      { services := [], mapReady := true, markers := [], emitted := [] } noCoordService).1
        = true ∧
    (ServiceMap.addService
      { services := [], mapReady := true, markers := [], emitted := [] } noCoordService).2.services
        = [noCoordService] ∧
    (ServiceMap.addService
      { services := [], mapReady := true, markers := [], emitted := [] } noCoordService).2.markers
        = [] := by
  decide

/-- C6: a single emit invokes all currently-registered handlers in
subscription order before returning; a throwing handler is caught and
logged with the originating event name, the effects of earlier handlers
are retained, later handlers still run, and the error does not propagate
(the emission is a total function returning normally). -/
theorem emit_subscription_order_and_isolation {σ : Type} (event : String)
    (A B C : ServiceMap.EventHandler σ) (s : σ) :
    (∀ s1 s2 s3, A s = .ok s1 → B s1 = .ok s2 → C s2 = .ok s3 →
      ServiceMap.emit
        (ServiceMap.onEvent (ServiceMap.onEvent (ServiceMap.onEvent [] event A) event B)
          event C) event s [] = (s3, [])) ∧
    (∀ s1 s2 e, A s = .ok s1 → B s1 = .error e → C s1 = .ok s2 →
      ServiceMap.emit
        (ServiceMap.onEvent (ServiceMap.onEvent (ServiceMap.onEvent [] event A) event B)
          event C) event s [] =
        (s2, ["Error in " ++ event ++ " event listener: " ++ e])) := by
  have hreg : ServiceMap.onEvent
      (ServiceMap.onEvent (ServiceMap.onEvent ([] : ServiceMap.Registry σ) event A) event B)
      event C = [(event, [A, B, C])] := by
    simp [ServiceMap.onEvent]
  constructor
  · intro s1 s2 s3 hA hB hC
    rw [hreg]
    simp [ServiceMap.emit, ServiceMap.emitStep, hA, hB, hC]
  · intro s1 s2 e hA hB hC
    rw [hreg]
    simp [ServiceMap.emit, ServiceMap.emitStep, hA, hB, hC]

/-- Witness for C6: three concrete counters on a concrete event, the middle
one throwing. -/
theorem emit_subscription_order_and_isolation_witness :
    ServiceMap.emit
      (ServiceMap.onEvent
        (ServiceMap.onEvent
          (ServiceMap.onEvent ([] : ServiceMap.Registry ℕ) "record-click"
            (fun n => .ok (n + 1)))
          "record-click" (fun _ => .error "boom"))
        "record-click" (fun n => .ok (n * 10)))
      "record-click" 0 [] = (10, ["Error in record-click event listener: boom"]) :=
  (emit_subscription_order_and_isolation "record-click"
    (fun n => .ok (n + 1)) (fun _ => .error "boom") (fun n => .ok (n * 10)) 0).2
    1 10 "boom" rfl rfl rfl
